import Mathlib

/-!
Shallow embedding of the permission-calculation and retry core of
`tanjun/utilities.py` (functions `_calculate_channel_overwrites`,
`_calculate_role_permissions`, `calculate_permissions`, `fetch_resource`,
`fetch_permissions`, constant `ALL_PERMISSIONS`), together with theorems
settling the specification claims about them.

Permission bitmasks are modelled as `Nat` (Python's unbounded ints restricted
to the non-negative values permission masks take); `p & ~d` on such masks is
the bitwise and-not, embedded below as `andNot`.  Snowflake identifiers are
modelled as `Nat`.  Mappings (`dict` / cache views) are association lists
queried with `List.lookup`.  Fallible code returns `Except`.
-/

namespace Tanjun

/-- Bitwise a AND (NOT b): the value of Python's `a & ~b` on non-negative
bitmasks (`~b` only clears bits of `a`, it never adds bits). -/
def andNot (a b : Nat) : Nat := a &&& (a ^^^ b)

/-- A guild role: its snowflake id and its permission bitmask
(`hikari.Role.id`, `hikari.Role.permissions`). -/
structure Role where
  id : Nat
  permissions : Nat
deriving Repr, DecidableEq

/-- A guild member: the user's id, the guild's id and the ids of the roles the
member holds (`hikari.Member.user.id`, `.guild_id`, `.role_ids`). -/
structure Member where
  user_id : Nat
  guild_id : Nat
  role_ids : List Nat
deriving Repr, DecidableEq

/-- A channel permission overwrite: allow and deny bitmasks
(`hikari.PermissionOverwrite.allow`, `.deny`). -/
structure Overwrite where
  allow : Nat
  deny : Nat
deriving Repr, DecidableEq

/-- A guild channel: its id, owning guild id, and mapping from subject id
(everyone-role / role / user) to overwrite (`hikari.GuildChannel`). -/
structure Channel where
  id : Nat
  guild_id : Nat
  permission_overwrites : List (Nat × Overwrite)
deriving Repr, DecidableEq

/-- A guild: its id, its owner's user id, and the role mapping carried by the
REST payload (`hikari.Guild.id`, `.owner_id`, `.roles`; the `roles` field is
read only on the remote-fetch path of `fetch_permissions`). -/
structure Guild where
  id : Nat
  owner_id : Nat
  roles : List (Nat × Role)
deriving Repr, DecidableEq

/-- Modelled from the spec: the closed universe of permission flags
(`hikari.Permissions`, external to this repository), an opaque list of flag
values together with the distinguished administrator flag.  The spec's
invariant that distinct flags never overlap bits is taken as a hypothesis
where a claim needs it, not baked into the type. -/
structure FlagUniverse where
  flags : List Nat
  ADMINISTRATOR : Nat
deriving Repr, DecidableEq

/-- `ALL_PERMISSIONS = functools.reduce(operator.__xor__, hikari.Permissions)`:
the xor of every defined flag.  `reduce` over a nonempty list coincides with
a fold starting from `0` because `0` is the identity of xor. -/
def ALL_PERMISSIONS (u : FlagUniverse) : Nat :=
  u.flags.foldl (· ^^^ ·) 0

/-- Errors raised by the pure permission calculator: `ValueError` for the
member/guild mismatch, `KeyError` for a missing everyone-role entry. -/
inductive PermError where
  | valueError
  | keyError
deriving Repr, DecidableEq

/-- One step of the role-overwrite accumulation loop of
`_calculate_channel_overwrites`: union the deny and allow of the overwrite
keyed by `rid` into the running pair (skipping absent overwrites, as
`filter(None, map(channel.permission_overwrites.get, member.role_ids))`
does). -/
def overwriteAccum (ows : List (Nat × Overwrite)) (da : Nat × Nat)
    (rid : Nat) : Nat × Nat :=
  match ows.lookup rid with
  | some overwrite => (da.1 ||| overwrite.deny, da.2 ||| overwrite.allow)
  | none => da

/-- Embeds `_calculate_channel_overwrites`: apply the everyone overwrite
(keyed by the member's guild id), then the union of the role overwrites for
roles the member holds, then the member's own overwrite, each as
clear-deny-then-set-allow. -/
def _calculate_channel_overwrites (channel : Channel) (member : Member)
    (permissions : Nat) : Nat :=
  let permissions :=
    match channel.permission_overwrites.lookup member.guild_id with
    | some everyone_overwrite =>
        andNot permissions everyone_overwrite.deny ||| everyone_overwrite.allow
    | none => permissions
  let da := member.role_ids.foldl
    (overwriteAccum channel.permission_overwrites) (0, 0)
  let permissions := andNot permissions da.1 ||| da.2
  match channel.permission_overwrites.lookup member.user_id with
  | some member_overwrite =>
      andNot permissions member_overwrite.deny ||| member_overwrite.allow
  | none => permissions

/-- One step of the loop of `_calculate_role_permissions`: union in the
permissions of the role found under `rid` when it exists and its id differs
from the guild id. -/
def roleAccum (roles : List (Nat × Role)) (gid : Nat) (permissions : Nat)
    (rid : Nat) : Nat :=
  match roles.lookup rid with
  | some role =>
      if role.id != gid then permissions ||| role.permissions
      else permissions
  | none => permissions

/-- Embeds `_calculate_role_permissions`: start from the everyone-role entry
(keyed by the guild id; missing ⇒ `KeyError`), then union in the permissions
of every held role found in the mapping whose id differs from the guild id. -/
def _calculate_role_permissions (roles : List (Nat × Role)) (member : Member) :
    Except PermError Nat :=
  match roles.lookup member.guild_id with
  | none => .error .keyError
  | some everyone =>
      .ok (member.role_ids.foldl (roleAccum roles member.guild_id)
        everyone.permissions)

/-- Embeds `calculate_permissions`: validate the member's guild, short-circuit
for the owner, resolve role permissions, short-circuit for administrator,
then (only if a channel was supplied) apply the channel overwrites. -/
def calculate_permissions (u : FlagUniverse) (member : Member) (guild : Guild)
    (roles : List (Nat × Role)) (channel : Option Channel) :
    Except PermError Nat :=
  if member.guild_id != guild.id then .error .valueError
  else if guild.owner_id == member.user_id then .ok (ALL_PERMISSIONS u)
  else
    match _calculate_role_permissions roles member with
    | .error e => .error e
    | .ok permissions =>
        if permissions &&& u.ADMINISTRATOR != 0 then .ok (ALL_PERMISSIONS u)
        else
          match channel with
          | none => .ok permissions
          | some c => .ok (_calculate_channel_overwrites c member permissions)

/-- Modelled from the spec: the mutable state of a `yuyo.backoff.Backoff`
instance (the external retry driver; `fetch_permissions` builds it as
`Backoff(maximum=5, max_retries=4)`).  `maximum` caps the scheduled
(exponential) waits, which this model keeps opaque; `max_retries` bounds the
retry budget; `retries`, `started`, `next_backoff` and `finished` are the
per-run counters that `reset` clears. -/
structure Backoff where
  maximum : Nat
  max_retries : Nat
  retries : Nat
  started : Bool
  next_backoff : Option Nat
  finished : Bool
deriving Repr, DecidableEq

/-- `Backoff.reset`: clear the per-run counters, keeping the configuration. -/
def Backoff.reset (b : Backoff) : Backoff :=
  { b with retries := 0, started := false, next_backoff := none, finished := false }

/-- Outcome of one invocation of the wrapped remote call: a value, a
rate-limited failure carrying its `retry_after` duration
(`hikari.RateLimitedError` / `RateLimitTooLongError`), a transient server
failure (`hikari.InternalServerError`), or any other exception. -/
inductive FetchStep (α : Type) where
  | ok : α → FetchStep α
  | rateLimited : Nat → FetchStep α
  | internalServerError : FetchStep α
  | otherError : FetchStep α
deriving Repr, DecidableEq

/-- A wait performed between attempts: either the server-suggested duration
recorded via `retry.set_next_backoff(exc.retry_after)`, or an opaque wait from
the driver's own schedule. -/
inductive Wait where
  | suggested : Nat → Wait
  | scheduled : Wait
deriving Repr, DecidableEq

/-- Whether an attempt outcome makes the guarded loop of `fetch_resource`
continue (consuming a retry when one is left): a transient server failure, or
a rate-limited failure whose `retry_after` is within the 5-unit ceiling. -/
def FetchStep.consumesRetry : FetchStep α → Bool
  | .internalServerError => true
  | .rateLimited r => decide (r ≤ 5)
  | .ok _ => false
  | .otherError => false

/-- The wait a retry-consuming failure causes before the next attempt: the
suggested duration for a rate limit, a scheduled wait otherwise. -/
def FetchStep.waitOf : FetchStep α → Wait
  | .rateLimited r => .suggested r
  | _ => .scheduled

/-- Observable behaviour of one `fetch_resource` run: the outcome of the run
(exactly what the last invocation yielded — a returned value or a propagated
exception), the waits performed between attempts, and the total number of
invocations of the wrapped call. -/
structure FetchTrace (α : Type) where
  result : FetchStep α
  waits : List Wait
  calls : Nat
deriving Repr, DecidableEq

/-- The waits a run of `b` consecutive retry-consuming failures starting at
attempt `j` performs, one per consumed retry. -/
def waitsFrom (call : Nat → FetchStep α) (j : Nat) : Nat → List Wait
  | 0 => []
  | b + 1 => (call j).waitOf :: waitsFrom call (j + 1) b

/-- The final unguarded invocation after the retry budget is exhausted (the
`else` clause of `fetch_resource`'s `async for`): its outcome is returned or
propagated verbatim. -/
def fetchFinal (call : Nat → FetchStep α) (idx : Nat) : FetchTrace α :=
  ⟨call idx, [], idx + 1⟩

/-- The guarded retry loop of `fetch_resource`.  `call i` is the outcome of
the `i`-th invocation of the wrapped coroutine; `budget` is the number of
retries the driver may still consume (the first attempt is free; each further
guarded attempt consumes one).  A success or an unrecognised exception ends
the run at once; a rate-limited failure whose `retry_after` exceeds 5 is
re-raised at once; otherwise the failure either consumes a retry (waiting the
suggested duration for rate limits, a scheduled wait for server errors) or,
with the budget exhausted, falls through to the single unguarded call. -/
def fetchLoop (call : Nat → FetchStep α) : Nat → Nat → FetchTrace α
  | idx, 0 =>
    match call idx with
    | .ok a => ⟨.ok a, [], idx + 1⟩
    | .otherError => ⟨.otherError, [], idx + 1⟩
    | .rateLimited r =>
        if 5 < r then ⟨.rateLimited r, [], idx + 1⟩
        else fetchFinal call (idx + 1)
    | .internalServerError => fetchFinal call (idx + 1)
  | idx, b + 1 =>
    match call idx with
    | .ok a => ⟨.ok a, [], idx + 1⟩
    | .otherError => ⟨.otherError, [], idx + 1⟩
    | .rateLimited r =>
        if 5 < r then ⟨.rateLimited r, [], idx + 1⟩
        else
          let t := fetchLoop call (idx + 1) b
          ⟨t.result, .suggested r :: t.waits, t.calls⟩
    | .internalServerError =>
        let t := fetchLoop call (idx + 1) b
        ⟨t.result, .scheduled :: t.waits, t.calls⟩

/-- Embeds `fetch_resource`: reset the shared driver, run the guarded loop
with the full budget the reset restored, and return the trace together with
the driver's post-run state (modelled from the spec: one consumed retry per
performed wait). -/
def fetch_resource (retry : Backoff) (call : Nat → FetchStep α) :
    FetchTrace α × Backoff :=
  let retry := retry.reset
  let t := fetchLoop call 0 (retry.max_retries - retry.retries)
  (t, { retry with retries := t.waits.length, started := true })

/-- Concrete attempt-outcome sequence: a rate-limited failure suggesting a
3-unit wait, then success. -/
def r3call : Nat → FetchStep Nat
  | 0 => .rateLimited 3
  | _ => .ok 99

/-- Concrete attempt-outcome sequence: five retry-consuming failures (a mix
of transient-server and under-ceiling rate-limited ones), then an
unrecognised error. -/
def c8call : Nat → FetchStep Nat
  | 0 => .internalServerError
  | 1 => .rateLimited 3
  | 2 => .internalServerError
  | 3 => .rateLimited 5
  | 4 => .internalServerError
  | _ => .otherError

/-- The read-through cache (`client.cache`): lookups by id.  A role view is
returned as a list; the empty list stands for both "no view" and an empty
view, which Python's truthiness test `if not roles:` treats alike. -/
structure Cache where
  get_guild : Nat → Option Guild
  get_roles_view_for_guild : Nat → List (Nat × Role)
  get_guild_channel : Nat → Option Channel

/-- A channel as resolved by the remote authority: either guild-scoped or a
DM channel (which `fetch_permissions` rejects with its `assert`). -/
inductive FetchedChannel where
  | guild : Channel → FetchedChannel
  | dm : FetchedChannel
deriving Repr, DecidableEq

/-- The remote authority (`client.rest`): for each endpoint, the outcome of
the `i`-th invocation for a given id (first argument the id, second the
attempt index). -/
structure Rest where
  fetch_guild : Nat → Nat → FetchStep Guild
  fetch_roles : Nat → Nat → FetchStep (List Role)
  fetch_channel : Nat → Nat → FetchStep FetchedChannel

/-- The Tanjun client as `fetch_permissions` consumes it: an optional cache
and the REST collaborator. -/
structure Client where
  cache : Option Cache
  rest : Rest

/-- The `channel` argument of `fetch_permissions`: a full guild-channel
object or a snowflakeish id. -/
inductive ChannelParam where
  | chan : Channel → ChannelParam
  | id : Nat → ChannelParam
deriving Repr, DecidableEq

/-- The id a channel parameter denotes (what `hikari.Snowflake(channel)` and
`rest.fetch_channel(channel)` resolve it to). -/
def ChannelParam.toId : ChannelParam → Nat
  | .chan c => c.id
  | .id n => n

/-- Python truthiness of the optional channel argument in `if not channel:`:
`None` and the snowflakeish `0` are falsy, a channel object is truthy. -/
def channelFalsy : Option ChannelParam → Bool
  | none => true
  | some (.id 0) => true
  | some _ => false

/-- Errors surfaced by `fetch_permissions`: the three propagated remote
failure kinds, `ValueError` for the channel/guild mismatch, `AssertionError`
for a non-guild channel, `KeyError` for a missing everyone-role entry. -/
inductive FetchError where
  | rateLimited : Nat → FetchError
  | internalServerError : FetchError
  | otherError : FetchError
  | valueError : FetchError
  | assertionError : FetchError
  | keyError : FetchError
deriving Repr, DecidableEq

/-- A pure-calculator error as it surfaces out of `fetch_permissions`. -/
def PermError.toFetchError : PermError → FetchError
  | .valueError => .valueError
  | .keyError => .keyError

/-- The driver `fetch_permissions` constructs:
`backoff.Backoff(maximum=5, max_retries=4)`. -/
def freshBackoff : Backoff :=
  { maximum := 5, max_retries := 4, retries := 0, started := false,
    next_backoff := none, finished := false }

/-- Guild resolution step of `fetch_permissions`: cache lookup (skipped when
no cache), else a guarded remote fetch; on the remote path the fetched
payload's `roles` mapping is kept for the next step (`[]` models Python's
`None`, which `roles or ...` treats like an empty mapping). -/
def resolveGuild (client : Client) (member : Member) (retry : Backoff) :
    Except FetchError (Guild × List (Nat × Role) × Backoff) :=
  match (match client.cache with
         | some cache => cache.get_guild member.guild_id
         | none => none) with
  | some guild => .ok (guild, [], retry)
  | none =>
      match fetch_resource retry (client.rest.fetch_guild member.guild_id) with
      | (t, retry) =>
        match t.result with
        | .ok guild => .ok (guild, guild.roles, retry)
        | .rateLimited r => .error (.rateLimited r)
        | .internalServerError => .error .internalServerError
        | .otherError => .error .otherError

/-- Role resolution step of `fetch_permissions`:
`roles = roles or client.cache and client.cache.get_roles_view_for_guild(...)`
followed by `if not roles:` and a guarded remote fetch assembled into an
id-to-role mapping. -/
def resolveRoles (client : Client) (member : Member)
    (roles0 : List (Nat × Role)) (retry : Backoff) :
    Except FetchError (List (Nat × Role) × Backoff) :=
  let roles1 := if roles0.isEmpty then
      (match client.cache with
       | some cache => cache.get_roles_view_for_guild member.guild_id
       | none => [])
    else roles0
  if roles1.isEmpty then
    match fetch_resource retry (client.rest.fetch_roles member.guild_id) with
    | (t, retry) =>
      match t.result with
      | .ok raw_roles => .ok (raw_roles.map (fun role => (role.id, role)), retry)
      | .rateLimited r => .error (.rateLimited r)
      | .internalServerError => .error .internalServerError
      | .otherError => .error .otherError
  else .ok (roles1, retry)

/-- Channel resolution step of `fetch_permissions`: a passed object is used
as-is, an id goes through the cache (when present), anything unresolved is
remotely fetched and must be guild-scoped. -/
def resolveChannel (client : Client) (channel : Option ChannelParam)
    (retry : Backoff) : Except FetchError (Channel × Backoff) :=
  let found : Option Channel :=
    match channel with
    | some (.chan c) => some c
    | some (.id n) =>
        (match client.cache with
         | some cache => cache.get_guild_channel n
         | none => none)
    | none => none
  match found with
  | some c => .ok (c, retry)
  | none =>
      let cid := match channel with
        | some p => p.toId
        | none => 0
      match fetch_resource retry (client.rest.fetch_channel cid) with
      | (t, retry) =>
        match t.result with
        | .ok (.guild c) => .ok (c, retry)
        | .ok .dm => .error .assertionError
        | .rateLimited r => .error (.rateLimited r)
        | .internalServerError => .error .internalServerError
        | .otherError => .error .otherError

/-- Embeds `fetch_permissions`: build one `Backoff(maximum=5, max_retries=4)`
shared by every remote resolution, resolve the guild, short-circuit for the
owner, resolve the roles, short-circuit for administrator, return the base
permissions when no channel scope was requested, else resolve the channel,
validate its guild and apply the overwrites. -/
def fetch_permissions (u : FlagUniverse) (client : Client) (member : Member)
    (channel : Option ChannelParam) : Except FetchError Nat :=
  let retry : Backoff := freshBackoff
  match resolveGuild client member retry with
  | .error e => .error e
  | .ok (guild, roles0, retry) =>
    if guild.owner_id == member.user_id then .ok (ALL_PERMISSIONS u)
    else
      match resolveRoles client member roles0 retry with
      | .error e => .error e
      | .ok (roles, retry) =>
        match _calculate_role_permissions roles member with
        | .error e => .error e.toFetchError
        | .ok permissions =>
          if permissions &&& u.ADMINISTRATOR != 0 then .ok (ALL_PERMISSIONS u)
          else if channelFalsy channel then .ok permissions
          else
            match resolveChannel client channel retry with
            | .error e => .error e
            | .ok (found_channel, _) =>
              if found_channel.guild_id != guild.id then .error .valueError
              else .ok (_calculate_channel_overwrites found_channel member permissions)

/-! ### Bitwise helper lemmas -/

theorem testBit_andNot (a b i : Nat) :
    (andNot a b).testBit i = (a.testBit i && !b.testBit i) := by
  simp only [andNot, Nat.testBit_land, Nat.testBit_xor]
  cases a.testBit i <;> cases b.testBit i <;> rfl

theorem land_eq_zero_iff {a b : Nat} :
    a &&& b = 0 ↔ ∀ i, (a.testBit i && b.testBit i) = false := by
  constructor
  · intro h i
    have := congrArg (fun x => Nat.testBit x i) h
    simpa [Nat.testBit_land] using this
  · intro h
    apply Nat.eq_of_testBit_eq
    intro i
    simp [Nat.testBit_land, h i]

theorem xor_eq_lor_of_land_eq_zero {a b : Nat} (h : a &&& b = 0) :
    a ^^^ b = a ||| b := by
  apply Nat.eq_of_testBit_eq
  intro i
  have hb := land_eq_zero_iff.mp h i
  simp only [Nat.testBit_xor, Nat.testBit_lor]
  cases ha : a.testBit i <;> cases hbb : b.testBit i <;> simp_all

theorem lor_land_eq_zero {a b c : Nat} (h1 : a &&& c = 0) (h2 : b &&& c = 0) :
    (a ||| b) &&& c = 0 := by
  rw [land_eq_zero_iff] at h1 h2 ⊢
  intro i
  have ha := h1 i
  have hb := h2 i
  simp only [Nat.testBit_lor]
  cases hca : a.testBit i <;> cases hcb : b.testBit i <;>
    cases hcc : c.testBit i <;> simp_all

theorem foldl_xor_eq_foldl_lor (l : List Nat) :
    ∀ init : Nat, l.Pairwise (fun a b => a &&& b = 0) →
      (∀ x ∈ l, init &&& x = 0) →
      l.foldl (· ^^^ ·) init = l.foldl (· ||| ·) init := by
  induction l with
  | nil => intro init _ _; rfl
  | cons h t ih =>
    intro init hp hi
    rw [List.pairwise_cons] at hp
    simp only [List.foldl_cons]
    rw [xor_eq_lor_of_land_eq_zero (hi h (List.mem_cons_self h t))]
    exact ih (init ||| h) hp.2
      (fun x hx => lor_land_eq_zero (hi x (List.mem_cons_of_mem h hx)) (hp.1 x hx))

theorem testBit_foldl_lor (l : List Nat) :
    ∀ (init i : Nat),
      (l.foldl (· ||| ·) init).testBit i =
        (init.testBit i || l.any (fun x => x.testBit i)) := by
  induction l with
  | nil => simp
  | cons h t ih =>
    intro init i
    simp only [List.foldl_cons, List.any_cons]
    rw [ih]
    simp [Nat.testBit_lor, Bool.or_assoc]

/-! ### Claim theorems -/

/-- C9: `ALL_PERMISSIONS` equals the union of every defined flag exactly once
(the xor-reduction coincides with the or-fold on a universe of pairwise
non-overlapping flags); consequently unioning any defined flag into
`ALL_PERMISSIONS` yields `ALL_PERMISSIONS`, and clearing `ALL_PERMISSIONS`
from itself yields the empty permission set. -/
theorem claim_C9 (u : FlagUniverse)
    (hdisj : u.flags.Pairwise (fun a b => a &&& b = 0)) :
    ALL_PERMISSIONS u = u.flags.foldl (· ||| ·) 0 ∧
    (∀ f ∈ u.flags, ALL_PERMISSIONS u ||| f = ALL_PERMISSIONS u) ∧
    andNot (ALL_PERMISSIONS u) (ALL_PERMISSIONS u) = 0 := by
  have hall : ALL_PERMISSIONS u = u.flags.foldl (· ||| ·) 0 :=
    foldl_xor_eq_foldl_lor u.flags 0 hdisj (fun x _ => by simp)
  refine ⟨hall, ?_, ?_⟩
  · intro f hf
    apply Nat.eq_of_testBit_eq
    intro i
    rw [hall, Nat.testBit_lor, testBit_foldl_lor]
    cases hfi : f.testBit i
    · simp
    · simp only [Bool.or_true, Nat.zero_testBit, Bool.false_or]
      exact (List.any_eq_true.mpr ⟨f, hf, hfi⟩).symm
  · apply Nat.eq_of_testBit_eq
    intro i
    rw [testBit_andNot]
    cases (ALL_PERMISSIONS u).testBit i <;> simp

/-- Concrete instantiation of C9 on the universe `{1, 2, 4}` with
administrator flag `8`. -/
theorem claim_C9_witness :
    ([1, 2, 4] : List Nat).Pairwise (fun a b => a &&& b = 0) ∧
    (ALL_PERMISSIONS ⟨[1, 2, 4], 8⟩ = ([1, 2, 4] : List Nat).foldl (· ||| ·) 0 ∧
     (∀ f ∈ ([1, 2, 4] : List Nat),
        ALL_PERMISSIONS ⟨[1, 2, 4], 8⟩ ||| f = ALL_PERMISSIONS ⟨[1, 2, 4], 8⟩) ∧
     andNot (ALL_PERMISSIONS ⟨[1, 2, 4], 8⟩) (ALL_PERMISSIONS ⟨[1, 2, 4], 8⟩) = 0) :=
  ⟨by decide, claim_C9 ⟨[1, 2, 4], 8⟩ (by decide)⟩

theorem testBit_foldl_roleAccum (roles : List (Nat × Role)) (gid : Nat)
    (l : List Nat) :
    ∀ (init i : Nat),
      (l.foldl (roleAccum roles gid) init).testBit i =
        (init.testBit i || l.any (fun rid =>
          match roles.lookup rid with
          | some role => role.id != gid && role.permissions.testBit i
          | none => false)) := by
  induction l with
  | nil => simp
  | cons h t ih =>
    intro init i
    simp only [List.foldl_cons, List.any_cons]
    rw [ih]
    cases hr : roles.lookup h with
    | none => simp [roleAccum, hr]
    | some role =>
      cases hid : (role.id != gid)
      · simp [roleAccum, hr, hid]
      · simp [roleAccum, hr, hid, Nat.testBit_lor, Bool.or_assoc]

/-- C5: on a mapping containing the everyone-role entry,
`_calculate_role_permissions` returns (without error) exactly the
everyone-role's bitmask unioned with the bitmask of every role the member
holds that is present in the mapping and whose id differs from the guild id;
held ids absent from the mapping contribute nothing. -/
theorem claim_C5 (roles : List (Nat × Role)) (member : Member) (everyone : Role)
    (h : roles.lookup member.guild_id = some everyone) :
    ∃ p, _calculate_role_permissions roles member = .ok p ∧
      ∀ i, p.testBit i =
        (everyone.permissions.testBit i ||
          member.role_ids.any (fun rid =>
            match roles.lookup rid with
            | some role => role.id != member.guild_id && role.permissions.testBit i
            | none => false)) := by
  refine ⟨member.role_ids.foldl (roleAccum roles member.guild_id)
    everyone.permissions, ?_, ?_⟩
  · simp [_calculate_role_permissions, h]
  · intro i
    exact testBit_foldl_roleAccum roles member.guild_id member.role_ids
      everyone.permissions i

/-- Concrete instantiation of C5: member of guild 1 holding roles 2 and 3,
mapping with everyone role 1 and role 2 but no role 3. -/
theorem claim_C5_witness :
    ([(1, Role.mk 1 1), (2, Role.mk 2 4)].lookup
        (Member.mk 10 1 [2, 3]).guild_id = some (Role.mk 1 1)) ∧
    ∃ p, _calculate_role_permissions [(1, Role.mk 1 1), (2, Role.mk 2 4)]
          (Member.mk 10 1 [2, 3]) = .ok p ∧
      ∀ i, p.testBit i =
        ((Role.mk 1 1).permissions.testBit i ||
          (Member.mk 10 1 [2, 3]).role_ids.any (fun rid =>
            match [(1, Role.mk 1 1), (2, Role.mk 2 4)].lookup rid with
            | some role =>
                role.id != (Member.mk 10 1 [2, 3]).guild_id &&
                  role.permissions.testBit i
            | none => false)) :=
  ⟨by decide, claim_C5 _ _ _ (by decide)⟩

/-- C6: the role permission resolver fails iff the everyone-role entry is
absent from the mapping; every failure it produces is the `KeyError`
precondition failure; and for a non-owner member of the right guild,
`calculate_permissions` fails iff that entry is absent. -/
theorem claim_C6 :
    (∀ (roles : List (Nat × Role)) (member : Member),
       (∃ e, _calculate_role_permissions roles member = .error e) ↔
         roles.lookup member.guild_id = none) ∧
    (∀ (roles : List (Nat × Role)) (member : Member) (e : PermError),
       _calculate_role_permissions roles member = .error e → e = .keyError) ∧
    (∀ (u : FlagUniverse) (member : Member) (guild : Guild)
       (roles : List (Nat × Role)) (channel : Option Channel),
       member.guild_id = guild.id → guild.owner_id ≠ member.user_id →
       ((∃ e, calculate_permissions u member guild roles channel = .error e) ↔
         roles.lookup member.guild_id = none)) := by
  refine ⟨?_, ?_, ?_⟩
  · intro roles member
    cases hl : roles.lookup member.guild_id <;>
      simp [_calculate_role_permissions, hl]
  · intro roles member e he
    cases hl : roles.lookup member.guild_id <;>
      simp [_calculate_role_permissions, hl] at he
    exact he.symm
  · intro u member guild roles channel hm ho
    have hbne : (member.guild_id != guild.id) = false := by simp [hm]
    have hbeq : (guild.owner_id == member.user_id) = false := by
      simp [ho]
    cases hl : roles.lookup member.guild_id with
    | none =>
      simp [calculate_permissions, hbne, hbeq, _calculate_role_permissions, hl]
    | some everyone =>
      simp only [calculate_permissions, hbne, hbeq, _calculate_role_permissions,
        hl, Bool.false_eq_true, if_false]
      cases hadm : (member.role_ids.foldl (roleAccum roles member.guild_id)
          everyone.permissions &&& u.ADMINISTRATOR != 0) <;>
        cases channel <;> simp [hadm]

/-- Concrete instantiation of C6: resolver failure on an empty mapping,
failure shape, and `calculate_permissions` failing for a non-owner member
exactly when the everyone entry is missing. -/
theorem claim_C6_witness :
    ((∃ e, _calculate_role_permissions ([] : List (Nat × Role))
        (Member.mk 10 1 []) = .error e) ↔
      ([] : List (Nat × Role)).lookup (Member.mk 10 1 []).guild_id = none) ∧
    PermError.keyError = PermError.keyError ∧
    ((Member.mk 10 1 []).guild_id = (Guild.mk 1 99 []).id ∧
      (Guild.mk 1 99 []).owner_id ≠ (Member.mk 10 1 []).user_id ∧
      ((∃ e, calculate_permissions ⟨[1, 2, 4], 8⟩ (Member.mk 10 1 [])
          (Guild.mk 1 99 []) [] none = .error e) ↔
        ([] : List (Nat × Role)).lookup (Member.mk 10 1 []).guild_id = none)) :=
  ⟨claim_C6.1 [] (Member.mk 10 1 []),
   claim_C6.2.1 [] (Member.mk 10 1 []) PermError.keyError rfl,
   by decide, by decide,
   claim_C6.2.2 ⟨[1, 2, 4], 8⟩ (Member.mk 10 1 []) (Guild.mk 1 99 []) [] none
     (by decide) (by decide)⟩

/-- C4 as stated is false on the code: `calculate_permissions` performs no
check of a supplied channel's `guild_id`.  With a member of guild 1, a guild
of id 1 and a channel whose `guild_id` is 42, it returns a permission value
instead of raising. -/
theorem claim_C4_counterexample :
    calculate_permissions ⟨[1, 2, 4], 8⟩ (Member.mk 2 1 []) (Guild.mk 1 99 [])
      [(1, Role.mk 1 1)] (some (Channel.mk 7 42 [])) = .ok 1 := rfl

/-- C4 amended: `calculate_permissions` raises its validation error whenever
`member.guild_id != guild.id`; it performs no validation of the channel's
`guild_id` — its result is invariant under changing that field. -/
theorem claim_C4_amended :
    (∀ (u : FlagUniverse) (member : Member) (guild : Guild)
       (roles : List (Nat × Role)) (channel : Option Channel),
       member.guild_id ≠ guild.id →
       calculate_permissions u member guild roles channel =
         .error PermError.valueError) ∧
    (∀ (u : FlagUniverse) (member : Member) (guild : Guild)
       (roles : List (Nat × Role)) (c : Channel) (gid : Nat),
       calculate_permissions u member guild roles
           (some { c with guild_id := gid }) =
         calculate_permissions u member guild roles (some c)) := by
  constructor
  · intro u member guild roles channel hm
    have hb : (member.guild_id != guild.id) = true := by simp [hm]
    simp [calculate_permissions, hb]
  · intro u member guild roles c gid
    rfl

/-- Concrete instantiation of C4 amended: a member/guild mismatch raises the
validation error, and changing a channel's `guild_id` does not change the
result. -/
theorem claim_C4_amended_witness :
    ((Member.mk 2 5 []).guild_id ≠ (Guild.mk 1 99 []).id) ∧
    calculate_permissions ⟨[1, 2, 4], 8⟩ (Member.mk 2 5 []) (Guild.mk 1 99 [])
        [] none = .error PermError.valueError ∧
    calculate_permissions ⟨[1, 2, 4], 8⟩ (Member.mk 2 1 []) (Guild.mk 1 99 [])
        [(1, Role.mk 1 1)] (some { Channel.mk 7 42 [] with guild_id := 3 }) =
      calculate_permissions ⟨[1, 2, 4], 8⟩ (Member.mk 2 1 []) (Guild.mk 1 99 [])
        [(1, Role.mk 1 1)] (some (Channel.mk 7 42 [])) :=
  ⟨by decide,
   claim_C4_amended.1 ⟨[1, 2, 4], 8⟩ (Member.mk 2 5 []) (Guild.mk 1 99 []) []
     none (by decide),
   claim_C4_amended.2 ⟨[1, 2, 4], 8⟩ (Member.mk 2 1 []) (Guild.mk 1 99 [])
     [(1, Role.mk 1 1)] (Channel.mk 7 42 []) 3⟩

theorem testBit_foldl_overwriteAccum_snd (ows : List (Nat × Overwrite))
    (l : List Nat) :
    ∀ (da : Nat × Nat) (i : Nat),
      ((l.foldl (overwriteAccum ows) da).2).testBit i =
        (da.2.testBit i || l.any (fun rid =>
          match ows.lookup rid with
          | some o => o.allow.testBit i
          | none => false)) := by
  induction l with
  | nil => simp
  | cons h t ih =>
    intro da i
    simp only [List.foldl_cons, List.any_cons]
    rw [ih]
    cases hr : ows.lookup h with
    | none => simp [overwriteAccum, hr]
    | some o => simp [overwriteAccum, hr, Nat.testBit_lor, Bool.or_assoc]

/-- C1: the channel overwrite resolver layers everyone, then roles, then
member, each clearing denies before setting allows.  With
everyone-deny = `2 ^ i`, an allow of `2 ^ i` on a role the member holds, and
member-deny = `2 ^ i`, the member layer is applied last, so bit `i` of the
result is cleared for every base permission set; dropping the member
overwrite shows the role layer is applied after the everyone layer, as bit
`i` is then set. -/
theorem claim_C1 (p i : Nat) (member : Member) (r : Nat)
    (hr : r ∈ member.role_ids)
    (hgr : member.guild_id ≠ r) (hgu : member.guild_id ≠ member.user_id)
    (hru : r ≠ member.user_id) (cid cgid : Nat) :
    (_calculate_channel_overwrites
        ⟨cid, cgid, [(member.guild_id, ⟨0, 2 ^ i⟩), (r, ⟨2 ^ i, 0⟩),
                     (member.user_id, ⟨0, 2 ^ i⟩)]⟩
        member p).testBit i = false ∧
    (_calculate_channel_overwrites
        ⟨cid, cgid, [(member.guild_id, ⟨0, 2 ^ i⟩), (r, ⟨2 ^ i, 0⟩)]⟩
        member p).testBit i = true := by
  have bgg : (member.guild_id == member.guild_id) = true := by simp
  have bug : (member.user_id == member.guild_id) = false := by
    simp [Ne.symm hgu]
  have bur : (member.user_id == r) = false := by simp [Ne.symm hru]
  have buu : (member.user_id == member.user_id) = true := by simp
  have brg : (r == member.guild_id) = false := by simp [Ne.symm hgr]
  have brr : (r == r) = true := by simp
  constructor
  · simp only [_calculate_channel_overwrites, List.lookup, bgg, bug, bur, buu]
    rw [Nat.testBit_lor, testBit_andNot]
    simp [Nat.testBit_two_pow_self]
  · simp only [_calculate_channel_overwrites, List.lookup, bgg, bug, bur]
    rw [Nat.testBit_lor, testBit_foldl_overwriteAccum_snd]
    have : member.role_ids.any (fun rid =>
        match List.lookup rid [(member.guild_id, (⟨0, 2 ^ i⟩ : Overwrite)),
          (r, ⟨2 ^ i, 0⟩)] with
        | some o => o.allow.testBit i
        | none => false) = true := by
      refine List.any_eq_true.mpr ⟨r, hr, ?_⟩
      simp [List.lookup, brg, brr, Nat.testBit_two_pow_self]
    simp [this]

/-- Concrete instantiation of C1 with base 7, bit 2, a member of guild 1
holding role 2. -/
theorem claim_C1_witness :
    (2 ∈ (Member.mk 10 1 [2]).role_ids ∧ (1 : Nat) ≠ 2 ∧ (1 : Nat) ≠ 10 ∧
      (2 : Nat) ≠ 10) ∧
    (_calculate_channel_overwrites
        ⟨5, 1, [(1, ⟨0, 4⟩), (2, ⟨4, 0⟩), (10, ⟨0, 4⟩)]⟩
        (Member.mk 10 1 [2]) 7).testBit 2 = false ∧
    (_calculate_channel_overwrites
        ⟨5, 1, [(1, ⟨0, 4⟩), (2, ⟨4, 0⟩)]⟩
        (Member.mk 10 1 [2]) 7).testBit 2 = true :=
  ⟨⟨by decide, by decide, by decide, by decide⟩,
   (claim_C1 7 2 (Member.mk 10 1 [2]) 2 (by decide) (by decide) (by decide)
     (by decide) 5 1).1,
   (claim_C1 7 2 (Member.mk 10 1 [2]) 2 (by decide) (by decide) (by decide)
     (by decide) 5 1).2⟩

/-- C2: when the member's guild matches and the role-derived permissions
contain the (non-empty) administrator flag, `calculate_permissions` returns
`ALL_PERMISSIONS` for every optional channel — the channel's overwrites are
never consulted. -/
theorem claim_C2 (u : FlagUniverse) (member : Member) (guild : Guild)
    (roles : List (Nat × Role)) (channel : Option Channel) (p : Nat)
    (hm : member.guild_id = guild.id)
    (hr : _calculate_role_permissions roles member = .ok p)
    (hA0 : u.ADMINISTRATOR ≠ 0)
    (hA : p &&& u.ADMINISTRATOR = u.ADMINISTRATOR) :
    calculate_permissions u member guild roles channel =
      .ok (ALL_PERMISSIONS u) := by
  have hbne : (member.guild_id != guild.id) = false := by simp [hm]
  have hadm : (p &&& u.ADMINISTRATOR != 0) = true := by simp [hA, hA0]
  cases hb : (guild.owner_id == member.user_id) <;>
    simp [calculate_permissions, hbne, hb, hr, hadm]

/-- Concrete instantiation of C2: an admin role member with a channel denying
every bit to that member specifically. -/
theorem claim_C2_witness :
    ((Member.mk 2 1 [3]).guild_id = (Guild.mk 1 99 []).id ∧
      _calculate_role_permissions [(1, Role.mk 1 0), (3, Role.mk 3 8)]
        (Member.mk 2 1 [3]) = .ok 8 ∧
      (8 : Nat) ≠ 0 ∧ (8 : Nat) &&& 8 = 8) ∧
    calculate_permissions ⟨[1, 2, 4], 8⟩ (Member.mk 2 1 [3]) (Guild.mk 1 99 [])
        [(1, Role.mk 1 0), (3, Role.mk 3 8)]
        (some ⟨7, 1, [(2, ⟨0, 15⟩)]⟩) = .ok (ALL_PERMISSIONS ⟨[1, 2, 4], 8⟩) :=
  ⟨⟨by decide, rfl, by decide, by decide⟩,
   claim_C2 ⟨[1, 2, 4], 8⟩ (Member.mk 2 1 [3]) (Guild.mk 1 99 [])
     [(1, Role.mk 1 0), (3, Role.mk 3 8)] (some ⟨7, 1, [(2, ⟨0, 15⟩)]⟩) 8
     (by decide) rfl (by decide) (by decide)⟩

/-- C3: when the guild's owner is the member, `calculate_permissions` (for a
member of that guild) and `fetch_permissions` (whatever guild resolution
produced) return `ALL_PERMISSIONS` whatever the role mapping and channel
hold — the owner short-circuit precedes role resolution and overwrite
application. -/
theorem claim_C3 :
    (∀ (u : FlagUniverse) (member : Member) (guild : Guild)
       (roles : List (Nat × Role)) (channel : Option Channel),
       member.guild_id = guild.id → guild.owner_id = member.user_id →
       calculate_permissions u member guild roles channel =
         .ok (ALL_PERMISSIONS u)) ∧
    (∀ (u : FlagUniverse) (client : Client) (member : Member)
       (channel : Option ChannelParam) (guild : Guild)
       (roles0 : List (Nat × Role)) (retry2 : Backoff),
       resolveGuild client member freshBackoff = .ok (guild, roles0, retry2) →
       guild.owner_id = member.user_id →
       fetch_permissions u client member channel = .ok (ALL_PERMISSIONS u)) := by
  constructor
  · intro u member guild roles channel hm ho
    have hbne : (member.guild_id != guild.id) = false := by simp [hm]
    have hbeq : (guild.owner_id == member.user_id) = true := by simp [ho]
    simp [calculate_permissions, hbne, hbeq]
  · intro u client member channel guild roles0 retry2 hres ho
    have hbeq : (guild.owner_id == member.user_id) = true := by simp [ho]
    simp [fetch_permissions, hres, hbeq]

/-- Concrete instantiation of C3: owner member, roles granting nothing, a
channel denying everything, on both the pure calculator and the fetch path
(guild resolved remotely on the first attempt). -/
theorem claim_C3_witness :
    ((Member.mk 2 1 []).guild_id = (Guild.mk 1 2 []).id ∧
      (Guild.mk 1 2 []).owner_id = (Member.mk 2 1 []).user_id ∧
      calculate_permissions ⟨[1, 2, 4], 8⟩ (Member.mk 2 1 []) (Guild.mk 1 2 [])
        [] (some ⟨7, 1, [(1, ⟨0, 15⟩), (2, ⟨0, 15⟩)]⟩) =
        .ok (ALL_PERMISSIONS ⟨[1, 2, 4], 8⟩)) ∧
    (resolveGuild
        ⟨none, ⟨fun _ _ => .ok (Guild.mk 1 2 []), fun _ _ => .ok [],
                fun _ _ => .ok .dm⟩⟩
        (Member.mk 2 1 []) freshBackoff =
        .ok (Guild.mk 1 2 [], [], ⟨5, 4, 0, true, none, false⟩) ∧
      fetch_permissions ⟨[1, 2, 4], 8⟩
        ⟨none, ⟨fun _ _ => .ok (Guild.mk 1 2 []), fun _ _ => .ok [],
                fun _ _ => .ok .dm⟩⟩
        (Member.mk 2 1 []) (some (.id 7)) =
        .ok (ALL_PERMISSIONS ⟨[1, 2, 4], 8⟩)) :=
  ⟨⟨by decide, by decide,
    claim_C3.1 ⟨[1, 2, 4], 8⟩ (Member.mk 2 1 []) (Guild.mk 1 2 []) []
      (some ⟨7, 1, [(1, ⟨0, 15⟩), (2, ⟨0, 15⟩)]⟩) (by decide) (by decide)⟩,
   rfl,
   claim_C3.2 ⟨[1, 2, 4], 8⟩
     ⟨none, ⟨fun _ _ => .ok (Guild.mk 1 2 []), fun _ _ => .ok [],
             fun _ _ => .ok .dm⟩⟩
     (Member.mk 2 1 []) (some (.id 7)) (Guild.mk 1 2 []) []
     ⟨5, 4, 0, true, none, false⟩ rfl (by decide)⟩

/-- C7: a rate-limited failure whose suggested wait exceeds the 5-unit
ceiling is re-raised at once — no wait, no further attempt; one within the
ceiling is recorded as the next backoff wait and the operation is retried
(here: the retry succeeds, after exactly the suggested wait). -/
theorem claim_C7 {α : Type} (retry : Backoff) (call : Nat → FetchStep α)
    (r n : Nat) (hmax : retry.max_retries = n + 1)
    (h0 : call 0 = .rateLimited r) :
    (5 < r → (fetch_resource retry call).1 = ⟨.rateLimited r, [], 1⟩) ∧
    (r ≤ 5 → ∀ a, call 1 = .ok a →
      (fetch_resource retry call).1 = ⟨.ok a, [.suggested r], 2⟩) := by
  constructor
  · intro hgt
    simp [fetch_resource, Backoff.reset, hmax, fetchLoop, h0, hgt]
  · intro hle a h1
    have hn : ¬ 5 < r := Nat.not_lt.mpr hle
    cases n <;>
      simp [fetch_resource, Backoff.reset, hmax, fetchLoop, h0, h1, hn,
        fetchFinal]

/-- Concrete instantiation of C7: a reported 3-unit wait causes one retry
after waiting 3 units; a reported 10-unit wait propagates immediately with no
wait and no retry. -/
theorem claim_C7_witness :
    (fetch_resource freshBackoff
        (fun _ => FetchStep.rateLimited 10 (α := Nat))).1 =
      ⟨.rateLimited 10, [], 1⟩ ∧
    (fetch_resource freshBackoff r3call).1 = ⟨.ok 99, [.suggested 3], 2⟩ :=
  ⟨(claim_C7 freshBackoff (fun _ => FetchStep.rateLimited 10) 10 3 rfl
      rfl).1 (by decide),
   (claim_C7 freshBackoff r3call 3 3 rfl rfl).2 (by decide) 99 rfl⟩

/-- After b+1 consecutive retry-consuming failures starting at attempt `j`
with `b` retries left, the loop performs one final unguarded call and returns
its outcome verbatim. -/
theorem fetchLoop_exhaust {α : Type} (call : Nat → FetchStep α) :
    ∀ (b j : Nat), (∀ k, k ≤ b → (call (j + k)).consumesRetry = true) →
      fetchLoop call j b =
        ⟨call (j + b + 1), waitsFrom call j b, j + b + 2⟩ := by
  intro b
  induction b with
  | zero =>
    intro j h
    have h0 := h 0 (Nat.le_refl 0)
    rw [Nat.add_zero] at h0
    cases hc : call j with
    | ok a => rw [hc] at h0; simp [FetchStep.consumesRetry] at h0
    | otherError => rw [hc] at h0; simp [FetchStep.consumesRetry] at h0
    | internalServerError => simp [fetchLoop, hc, fetchFinal, waitsFrom]
    | rateLimited r =>
      rw [hc] at h0
      have hr : ¬ 5 < r := by
        simpa [FetchStep.consumesRetry, Nat.not_lt] using h0
      simp [fetchLoop, hc, hr, fetchFinal, waitsFrom]
  | succ b ih =>
    intro j h
    have h0 := h 0 (Nat.zero_le _)
    rw [Nat.add_zero] at h0
    have hrec := ih (j + 1) (fun k hk => by
      have hx := h (k + 1) (Nat.succ_le_succ hk)
      rw [show j + (k + 1) = j + 1 + k by omega] at hx
      exact hx)
    have harith1 : j + 1 + b + 1 = j + (b + 1) + 1 := by omega
    have harith2 : j + 1 + b + 2 = j + (b + 1) + 2 := by omega
    cases hc : call j with
    | ok a => rw [hc] at h0; simp [FetchStep.consumesRetry] at h0
    | otherError => rw [hc] at h0; simp [FetchStep.consumesRetry] at h0
    | internalServerError =>
      simp only [fetchLoop, hc, hrec, harith1, harith2, waitsFrom]
      simp [FetchStep.waitOf, hc]
    | rateLimited r =>
      rw [hc] at h0
      have hr : ¬ 5 < r := by
        simpa [FetchStep.consumesRetry, Nat.not_lt] using h0
      simp only [fetchLoop, hc, hr, if_false, hrec, harith1, harith2, waitsFrom]
      simp [FetchStep.waitOf, hc]

/-- C8: when the first five invocations all fail retryably (exhausting the
budget of 4 retries), `fetch_resource` performs exactly one additional
unguarded invocation and yields that invocation's outcome verbatim — the
result is literally `call 5`, whether success or failure, never a synthetic
retries-exhausted error. -/
theorem claim_C8 {α : Type} (retry : Backoff) (call : Nat → FetchStep α)
    (hmax : retry.max_retries = 4)
    (hfail : ∀ i, i ≤ 4 → (call i).consumesRetry = true) :
    (fetch_resource retry call).1 =
      ⟨call 5, [(call 0).waitOf, (call 1).waitOf, (call 2).waitOf,
        (call 3).waitOf], 6⟩ := by
  have h := fetchLoop_exhaust call 4 0 (fun k hk => by
    simpa using hfail k hk)
  simp only [fetch_resource, Backoff.reset, hmax, Nat.sub_zero]
  simpa [waitsFrom] using h

/-- Concrete instantiation of C8: five failures (a mix of transient-server
and under-ceiling rate-limited ones), then an unguarded sixth call whose
outcome (here an unrecognised error) is propagated verbatim. -/
theorem claim_C8_witness :
    (freshBackoff.max_retries = 4 ∧
      (∀ i, i ≤ 4 → (c8call i).consumesRetry = true)) ∧
    (fetch_resource freshBackoff c8call).1 =
      ⟨c8call 5, [(c8call 0).waitOf, (c8call 1).waitOf, (c8call 2).waitOf,
        (c8call 3).waitOf], 6⟩ :=
  ⟨⟨rfl, by decide⟩, claim_C8 freshBackoff c8call rfl (by decide)⟩

/-- C10: `fetch_resource` resets the shared driver before its first attempt:
its observable behaviour is independent of the counters the driver carried in
(it depends only on the configured retry budget), the guarded loop always
starts with the full budget, and within one `fetch_permissions` call the
guild, roles and channel resolutions each receive the full budget of 4
retries from the shared instance — with every remote endpoint succeeding
only on its sixth (post-exhaustion) invocation, all three resolutions still
succeed. -/
theorem claim_C10 :
    (∀ (α : Type) (r1 r2 : Backoff) (call : Nat → FetchStep α),
       r1.max_retries = r2.max_retries →
       (fetch_resource r1 call).1 = (fetch_resource r2 call).1) ∧
    (∀ (α : Type) (retry : Backoff) (call : Nat → FetchStep α),
       (fetch_resource retry call).1 = fetchLoop call 0 retry.max_retries) ∧
    fetch_permissions ⟨[1, 2, 4], 8⟩
      ⟨none,
        ⟨fun _ i => if i < 5 then .internalServerError
                    else .ok (Guild.mk 1 99 []),
         fun _ i => if i < 5 then .internalServerError else .ok [Role.mk 1 5],
         fun _ i => if i < 5 then .internalServerError
                    else .ok (.guild (Channel.mk 7 1 []))⟩⟩
      (Member.mk 2 1 []) (some (.id 7)) = .ok 5 := by
  refine ⟨?_, ?_, ?_⟩
  · intro α r1 r2 call h
    simp [fetch_resource, Backoff.reset, h]
  · intro α retry call
    simp [fetch_resource, Backoff.reset]
  · rfl

/-- Concrete instantiation of C10: a driver with stale counters behaves like
a fresh one, runs with the full budget, and the end-to-end
`fetch_permissions` scenario in which every remote endpoint needs its full
retry budget succeeds. -/
theorem claim_C10_witness :
    ((fetch_resource ⟨5, 4, 3, true, some 2, true⟩
        (fun _ => FetchStep.ok (7 : Nat))).1 =
      (fetch_resource freshBackoff (fun _ => FetchStep.ok (7 : Nat))).1) ∧
    ((fetch_resource ⟨5, 4, 3, true, some 2, true⟩
        (fun _ => FetchStep.ok (7 : Nat))).1 =
      fetchLoop (fun _ => FetchStep.ok (7 : Nat)) 0 4) ∧
    fetch_permissions ⟨[1, 2, 4], 8⟩
      ⟨none,
        ⟨fun _ i => if i < 5 then .internalServerError
                    else .ok (Guild.mk 1 99 []),
         fun _ i => if i < 5 then .internalServerError else .ok [Role.mk 1 5],
         fun _ i => if i < 5 then .internalServerError
                    else .ok (.guild (Channel.mk 7 1 []))⟩⟩
      (Member.mk 2 1 []) (some (.id 7)) = .ok 5 :=
  ⟨claim_C10.1 Nat ⟨5, 4, 3, true, some 2, true⟩ freshBackoff
     (fun _ => FetchStep.ok 7) rfl,
   claim_C10.2.1 Nat ⟨5, 4, 3, true, some 2, true⟩ (fun _ => FetchStep.ok 7),
   claim_C10.2.2⟩

end Tanjun
